import Mathlib

/-!
Verification of the AgentTool session-orchestration core.

This file gives a shallow embedding, in Lean, of the Rust code under
`src-tauri/src/` (models.rs, claude_code_adapter.rs, gemini_cli_adapter.rs,
middle_manager.rs, session_manager.rs, git_worktree_manager.rs) and proves
properties of the embedded definitions.

Modelling conventions:
- machine state (the session table, the per-adapter process tables) is passed
  explicitly; `Arc<RwLock<HashMap<..>>>` / `Arc<Mutex<HashMap<..>>>` become
  association lists with first-match lookup;
- `Uuid::new_v4()` and `chrono::Utc::now()` are modelled by one monotone
  counter (`gen`) threaded through the state: each Rust call that samples a
  uuid or a timestamp consumes fresh values from the counter;
- external effects (the OpenRouter HTTP call, serde_json parsing, child
  process spawn / stdin write / stdout read, git subcommands, the sqlite
  store, the filesystem) are oracles passed in as function or data
  parameters; every theorem quantifies over them;
- Rust functions returning `Result` become `Except String`; a reachable Rust
  panic is modelled by a distinguished `RustOutcome.panics` constructor;
- Rust `str::find`/`rfind` return byte indices while the model uses char
  indices over `String.toList`; since the searched characters (braces) are
  one byte wide, the slice taken and the panic condition
  (`start > end + 1`) coincide with the byte-level ones;
- `str::to_lowercase` is modelled per-character with `Char.toLower`, which
  agrees with Rust on every code point relevant to the scanned keywords.
-/

namespace AgentTool

/-! ## String helpers mirroring the Rust `str` operations used by the code -/

/-- Per-character lowercasing, modelling Rust `str::to_lowercase`. -/
def lowerStr (s : String) : String :=
  String.mk (s.toList.map Char.toLower)

/-- Test whether `pat` is a prefix of the second list. -/
def listIsPrefix : List Char → List Char → Bool
  | [], _ => true
  | _ :: _, [] => false
  | a :: as, b :: bs => a = b && listIsPrefix as bs

/-- Test whether some suffix of the second list has `pat` as a prefix. -/
def listContainsSub (pat : List Char) : List Char → Bool
  | [] => listIsPrefix pat []
  | c :: rest => listIsPrefix pat (c :: rest) || listContainsSub pat rest

/-- Substring containment, modelling Rust `str::contains`. -/
def containsStr (s pat : String) : Bool :=
  listContainsSub pat.toList s.toList

/-- Whether `s` starts with `pat`, modelling Rust `str::starts_with`. -/
def strStartsWith (s pat : String) : Bool :=
  listIsPrefix pat.toList s.toList

/-- Index of the first occurrence of `c`, modelling Rust `str::find`. -/
def firstIdxOf (c : Char) : List Char → Option Nat
  | [] => none
  | a :: rest => if a = c then some 0 else (firstIdxOf c rest).map (· + 1)

/-- Index of the last occurrence of `c`, modelling Rust `str::rfind`. -/
def lastIdxOf (c : Char) : List Char → Option Nat
  | [] => none
  | a :: rest =>
    match lastIdxOf c rest with
    | some k => some (k + 1)
    | none => if a = c then some 0 else none

/-- Strip one trailing carriage return (used by the `lines` model). -/
def stripTrailingCr (cs : List Char) : List Char :=
  match cs.reverse with
  | '\r' :: rest => rest.reverse
  | _ => cs

/-- First element of Rust `str::lines`: `none` on the empty string, else the
text before the first newline with a trailing CR stripped only when a newline
terminated it (a bare final carriage return is not a line ending). -/
def rustFirstLine (s : String) : Option String :=
  match s.toList with
  | [] => none
  | cs =>
    let pre := cs.takeWhile (fun c => !(c = '\n'))
    if pre.length < cs.length then some (String.mk (stripTrailingCr pre))
    else some (String.mk pre)

/-- String membership in a list, modelling `Vec::contains`. -/
def elemStr : List String → String → Bool
  | [], _ => false
  | a :: rest, s => a = s || elemStr rest s

/-! ## Association lists with first-match semantics (HashMap model) -/

/-- First-match lookup in an association list (`HashMap::get`). -/
def alookup {α : Type} : List (String × α) → String → Option α
  | [], _ => none
  | (k, v) :: rest, key => if k = key then some v else alookup rest key

/-- Update the first binding of `key`, if any (`HashMap::get_mut`). -/
def aupdate {α : Type} : List (String × α) → String → (α → α) → List (String × α)
  | [], _, _ => []
  | (k, v) :: rest, key, f =>
    if k = key then (k, f v) :: rest else (k, v) :: aupdate rest key f

/-! ## Data model (models.rs) -/

/-- models.rs `SessionStatus`. -/
inductive SessionStatus where
  | Created
  | Active
  | Paused
  | Completed
  | Failed
deriving DecidableEq, Repr

/-- models.rs `TaskStatus`. -/
inductive TaskStatus where
  | Pending
  | InProgress
  | Completed
  | Failed
  | Cancelled
deriving DecidableEq, Repr

/-- models.rs `Session`; timestamps are counter values (see header). -/
structure Session where
  id : String
  name : String
  project_path : String
  description : Option String
  status : SessionStatus
  created_at : Nat
  updated_at : Nat
  worktree_path : Option String
  branch_name : Option String
deriving DecidableEq, Repr

/-- models.rs `TaskResult`; ids and timestamps are counter values. -/
structure TaskResult where
  id : Nat
  session_id : String
  task_description : String
  agent_type : String
  status : TaskStatus
  result : Option String
  error : Option String
  created_at : Nat
  completed_at : Option Nat
deriving DecidableEq, Repr

/-- models.rs `AgentPermissions`. -/
structure AgentPermissions where
  file_read : Bool
  file_write : Bool
  network_access : Bool
  process_spawn : Bool
  allowed_paths : List String
deriving DecidableEq, Repr

/-- session_manager.rs `MessageRole`. -/
inductive MessageRole where
  | User
  | Assistant
  | System
deriving DecidableEq, Repr

/-- session_manager.rs `ConversationMessage`. -/
structure ConversationMessage where
  id : Nat
  session_id : String
  role : MessageRole
  content : String
  agent_type : Option String
  created_at : Nat
deriving DecidableEq, Repr

/-- A Rust computation that may panic, fail with an error, or succeed. -/
inductive RustOutcome (ε α : Type) where
  | panics
  | err (e : ε)
  | ok (a : α)
deriving DecidableEq, Repr

/-! ## Claude Code adapter (claude_code_adapter.rs)

A registered backend process; the spawned `Child` is modelled by the log of
strings written to its stdin, which records every interaction the adapter
performs with the process. -/

/-- claude_code_adapter.rs `ClaudeCodeProcess`. -/
structure ClaudeProcess where
  project_path : String
  permissions : AgentPermissions
  stdin_writes : List String
deriving DecidableEq, Repr

/-- The `processes` table of claude_code_adapter.rs `ClaudeCodeAdapter`. -/
structure ClaudeAdapterState where
  processes : List (String × ClaudeProcess)
deriving DecidableEq, Repr

namespace ClaudeCodeAdapter

/-- claude_code_adapter.rs `validate_task_permissions` (lines 194-217):
keyword scan of the lowercased task text against the bound permissions. -/
def validate_task_permissions (task : String) (permissions : AgentPermissions) : Bool :=
  let t := lowerStr task
  if (containsStr t "read" || containsStr t "open") && !permissions.file_read then
    false
  else if (containsStr t "write" || containsStr t "save" || containsStr t "create")
      && !permissions.file_write then
    false
  else if (containsStr t "fetch" || containsStr t "download" || containsStr t "http")
      && !permissions.network_access then
    false
  else if (containsStr t "run" || containsStr t "execute" || containsStr t "spawn")
      && !permissions.process_spawn then
    false
  else
    true

/-- claude_code_adapter.rs `execute_task` (lines 86-154).
`writeErr` is the outcome of the stdin writes (`some e` = io failure),
`readOutput` the text obtained by the stdout read loop, `g` the fresh
uuid/clock base for the produced `TaskResult`. -/
def execute_task (st : ClaudeAdapterState) (writeErr : Option String)
    (readOutput : String) (g : Nat) (session_id task : String)
    (context : Option String) : Except String (TaskResult × ClaudeAdapterState) :=
  match alookup st.processes session_id with
  | none => .error ("Session not found: " ++ session_id)
  | some process =>
    if !(validate_task_permissions task process.permissions) then
      .ok (⟨g, session_id, task, "claude_code", .Failed, none,
            some "Task not allowed by current permissions", g + 1, some (g + 2)⟩, st)
    else
      let task_with_context :=
        match context with
        | some ctx => "Context: " ++ ctx ++ "\n\nTask: " ++ task
        | none => task
      match writeErr with
      | some e => .error ("Failed to write to process: " ++ e)
      | none =>
        let st' : ClaudeAdapterState :=
          ⟨aupdate st.processes session_id
            (fun p => { p with stdin_writes := p.stdin_writes ++ [task_with_context, "\n"] })⟩
        let output := readOutput
        .ok (⟨g, session_id, task, "claude_code",
              (if output = "" then .Failed else .Completed),
              (if output = "" then none else some output),
              (if output = "" then some "No output received" else none),
              g + 1, some (g + 2)⟩, st')

end ClaudeCodeAdapter

/-! ## Gemini CLI adapter (gemini_cli_adapter.rs) -/

/-- gemini_cli_adapter.rs `GeminiCliProcess`. -/
structure GeminiProcess where
  project_path : String
  permissions : AgentPermissions
deriving DecidableEq, Repr

/-- The `processes` table of gemini_cli_adapter.rs `GeminiCliAdapter`. -/
structure GeminiAdapterState where
  processes : List (String × GeminiProcess)
deriving DecidableEq, Repr

namespace GeminiCliAdapter

/-- gemini_cli_adapter.rs `validate_task_permissions` (lines 218-241): like
the Claude gate but with its own keyword sets and an unconditional
`network_access` requirement. -/
def validate_task_permissions (task : String) (permissions : AgentPermissions) : Bool :=
  let t := lowerStr task
  if (containsStr t "read" || containsStr t "open" || containsStr t "analyze file")
      && !permissions.file_read then
    false
  else if (containsStr t "write" || containsStr t "save" || containsStr t "create file")
      && !permissions.file_write then
    false
  else if !permissions.network_access then
    false
  else if (containsStr t "execute command" || containsStr t "run script")
      && !permissions.process_spawn then
    false
  else
    true

/-- gemini_cli_adapter.rs `format_gemini_prompt` (lines 190-204). -/
def format_gemini_prompt (task : String) (context : Option String) : String :=
  (match context with
   | some ctx => "Context: " ++ ctx ++ "\n\n"
   | none => "")
  ++ "Task: " ++ task ++ "\n\nPlease provide a clear and concise response."

/-- gemini_cli_adapter.rs `start_session` (lines 29-91): rejects a duplicate
session key, then hard-rejects when `network_access` is false (before any
spawn), then spawns (`spawnErr` is the spawn outcome oracle). -/
def start_session (st : GeminiAdapterState) (spawnErr : Option String)
    (session_id project_path : String) (permissions : AgentPermissions) :
    Except String (String × GeminiAdapterState) :=
  if (alookup st.processes session_id).isSome then
    .error ("Session already exists: " ++ session_id)
  else if !permissions.network_access then
    .error "Gemini CLI requires network access to function"
  else
    match spawnErr with
    | some e => .error ("Failed to spawn Gemini CLI process: " ++ e)
    | none =>
      .ok (session_id,
        ⟨(session_id, ⟨project_path, permissions⟩) :: st.processes⟩)

/-- gemini_cli_adapter.rs `execute_task` (lines 93-138): permission gate,
then (in the current code) a mock completion that never touches the child
process. -/
def execute_task (st : GeminiAdapterState) (g : Nat) (session_id task : String)
    (context : Option String) : Except String (TaskResult × GeminiAdapterState) :=
  match alookup st.processes session_id with
  | none => .error ("Session not found: " ++ session_id)
  | some process =>
    if !(validate_task_permissions task process.permissions) then
      .ok (⟨g, session_id, task, "gemini_cli", .Failed, none,
            some "Task not allowed by current permissions", g + 1, some (g + 2)⟩, st)
    else
      .ok (⟨g, session_id, task, "gemini_cli", .Completed,
            some ("Gemini CLI would execute: " ++ format_gemini_prompt task context),
            none, g + 1, some (g + 2)⟩, st)

end GeminiCliAdapter

/-! ## Middle manager / task planner (middle_manager.rs) -/

/-- middle_manager.rs `SubTask`. -/
structure SubTask where
  id : String
  description : String
  agent : String
  priority : String
  dependencies : List String
deriving DecidableEq, Repr

/-- middle_manager.rs `TaskDecomposition`. -/
structure TaskDecomposition where
  strategy : String
  reasoning : String
  subtasks : List SubTask
deriving DecidableEq, Repr

namespace MiddleManager

/-- The fixed instruction template of middle_manager.rs `process_task`
(lines 22-53), with the task and context interpolated. -/
def decompositionPrompt (task context : String) : String :=
  "You are a Middle Manager Agent responsible for coordinating AI coding assistants.\n\nYour job is to analyze the given task and decide:\n1. Whether to handle it yourself or delegate to subagents\n2. If delegating, break it into smaller tasks\n3. Choose the appropriate agent(s) for each subtask\n\nAvailable agents:\n- claude_code: Best for code analysis, writing, debugging, complex reasoning\n- gemini_cli: Good for quick tasks, code generation, simple operations\n- middle_manager: For coordination, planning, high-level analysis\n\nCurrent task: "
  ++ task ++ "\nContext: " ++ context
  ++ "\n\nRespond with JSON in this format:\n\x7b\n  \"strategy\": \"direct|delegate|hybrid\",\n  \"reasoning\": \"explanation of approach\",\n  \"subtasks\": [\n    \x7b\n      \"id\": \"unique_id\",\n      \"description\": \"task description\", \n      \"agent\": \"claude_code|gemini_cli|middle_manager\",\n      \"priority\": \"high|medium|low\",\n      \"dependencies\": [\"other_task_ids\"]\n    \x7d\n  ]\n\x7d"

/-- middle_manager.rs `parse_decomposition_response` (lines 205-232).
`serde` abstracts the external `serde_json::from_str::<TaskDecomposition>`
(`none` = parse failure); `fid` is the fresh uuid for the fallback subtask.
The function finds the first `\x7b` and the last `\x7d` byte positions and
slices `response[start..=end]`: when `start > end + 1` that Rust slice
indexing panics, modelled by `.panics`. -/
def parse_decomposition_response (serde : String → Option TaskDecomposition)
    (fid : Nat) (response : String) : RustOutcome String TaskDecomposition :=
  let cs := response.toList
  match firstIdxOf '{' cs, lastIdxOf '}' cs with
  | some start, some stop =>
    if stop + 1 < start then
      .panics
    else
      let json_str := String.mk ((cs.drop start).take (stop + 1 - start))
      match serde json_str with
      | some decomposition => .ok decomposition
      | none =>
        .ok ⟨"delegate", "Parsed from AI response",
          [⟨Nat.repr fid, (rustFirstLine response).getD "AI generated task",
            "claude_code", "high", []⟩]⟩
  | _, _ => .err "No valid JSON found in response"

/-- middle_manager.rs `process_task` (lines 21-73). `capability` abstracts
`call_openrouter_api` (the whole remote call, including the no-API-key
early error); on capability failure the hardcoded single-subtask fallback
decomposition is returned. -/
def process_task (capability : String → Except String String)
    (serde : String → Option TaskDecomposition) (fid : Nat)
    (task context : String) : RustOutcome String TaskDecomposition :=
  match capability (decompositionPrompt task context) with
  | .ok response => parse_decomposition_response serde fid response
  | .error _ =>
    .ok ⟨"delegate", "Task requires code analysis and implementation",
      [⟨Nat.repr fid, task, "claude_code", "high", []⟩]⟩

end MiddleManager

/-! ## Session orchestrator (session_manager.rs) -/

/-- session_manager.rs `SessionData`: the per-session record of the
active-session table. `active_tasks` is the `HashMap<String, TaskResult>`
keyed by task id (here a counter value). -/
structure SessionData where
  session : Session
  conversation_history : List ConversationMessage
  active_tasks : List (Nat × TaskResult)
deriving DecidableEq, Repr

/-- The `SessionManager` state: the active-session table plus the single
monotone counter supplying uuids and timestamps. -/
structure SMState where
  active_sessions : List (String × SessionData)
  gen : Nat
deriving DecidableEq, Repr

namespace SessionManager

/-- Advance the uuid/clock counter by `n` fresh values. -/
def bumpGen (st : SMState) (n : Nat) : SMState :=
  { st with gen := st.gen + n }

/-- The conversation history the table holds for `sid` (empty if absent),
as in session_manager.rs `get_conversation_history` (lines 182-188). -/
def historyOf (st : SMState) (sid : String) : List ConversationMessage :=
  match alookup st.active_sessions sid with
  | some sd => sd.conversation_history
  | none => []

/-- session_manager.rs `add_message` (lines 149-180): builds the message
(uuid `gen`, created_at `gen+1`), then — only if the session is in the
table — appends it to the history, refreshes `updated_at` (to `gen+2`) and
sets the session status to `Active`. Returns the message either way. -/
def add_message (st : SMState) (session_id : String) (role : MessageRole)
    (content : String) (agent_type : Option String) :
    ConversationMessage × SMState :=
  let message : ConversationMessage :=
    ⟨st.gen, session_id, role, content, agent_type, st.gen + 1⟩
  let table :=
    aupdate st.active_sessions session_id (fun sd =>
      { sd with
        conversation_history := sd.conversation_history ++ [message]
        session := { sd.session with updated_at := st.gen + 2, status := .Active } })
  (message, ⟨table, st.gen + 3⟩)

/-- session_manager.rs `build_context_from_history` (lines 340-361): the
most recent 10 messages, chronological, rendered one per line. -/
def build_context_from_history (history : List ConversationMessage) : String :=
  let recent := (history.reverse.take 10).reverse
  String.intercalate "\n" (recent.map (fun msg =>
    let role :=
      match msg.role with
      | .User => "User"
      | .Assistant => "Assistant"
      | .System => "System"
    let agent_info :=
      match msg.agent_type with
      | some a => " (" ++ a ++ ")"
      | none => ""
    role ++ agent_info ++ ": " ++ msg.content))

/-- The `TaskResult` built inline by session_manager.rs `execute_user_request`
for a `middle_manager` subtask (lines 236-249): trivially `Completed`, with
uuid `g` and both timestamps drawn from the clock. -/
def mk_middle_manager_result (g : Nat) (session_id description : String) : TaskResult :=
  ⟨g, session_id, description, "middle_manager", .Completed,
    some "Coordination task handled by middle manager", none, g + 1, some (g + 2)⟩

/-- Store a task result in the session's `active_tasks` map
(session_manager.rs lines 255-261). -/
def store_task_result (st : SMState) (session_id : String) (tr : TaskResult) : SMState :=
  { st with
    active_sessions :=
      aupdate st.active_sessions session_id (fun sd =>
        { sd with active_tasks := (tr.id, tr) :: sd.active_tasks }) }

/-- The conversation line summarizing a task result
(session_manager.rs lines 263-270). -/
def resultMessageContent (tr : TaskResult) : String :=
  match tr.result with
  | some r => "Task completed: " ++ r
  | none =>
    match tr.error with
    | some e => "Task failed: " ++ e
    | none => "Task completed with no output"

/-- The `match subtask.agent.as_str()` dispatch of `execute_user_request`
(lines 229-253). `dispatchExt` abstracts `execute_claude_code_task` /
`execute_gemini_cli_task` (lines 284-338), whose effects live in the
adapters' process tables (modelled separately) and which read, but never
write, the session table; it yields the dispatched subtask's `TaskResult`
or the propagated error. A `middle_manager` subtask is handled inline
(consuming three fresh counter values); an unrecognized agent kind aborts
with an error. -/
def dispatch_subtask (dispatchExt : String → SubTask → Except String TaskResult)
    (sid : String) (subtask : SubTask) (st : SMState) :
    Except String (TaskResult × SMState) :=
  if subtask.agent = "claude_code" then
    (dispatchExt "claude_code" subtask).map (fun tr => (tr, st))
  else if subtask.agent = "gemini_cli" then
    (dispatchExt "gemini_cli" subtask).map (fun tr => (tr, st))
  else if subtask.agent = "middle_manager" then
    .ok (mk_middle_manager_result st.gen sid subtask.description, bumpGen st 3)
  else
    .error ("Unknown agent type: " ++ subtask.agent)

/-- The subtask loop of `execute_user_request` (lines 228-279): dispatch in
plan order, store each result against the session, append one Assistant
message per subtask, accumulating the `responses` list. -/
def run_subtasks (dispatchExt : String → SubTask → Except String TaskResult)
    (sid : String) :
    List SubTask → SMState → List ConversationMessage →
    RustOutcome String (List ConversationMessage × SMState)
  | [], st, responses => .ok (responses, st)
  | subtask :: rest, st, responses =>
    match dispatch_subtask dispatchExt sid subtask st with
    | .error e => .err e
    | .ok (tr, st1) =>
      let st2 := store_task_result st1 sid tr
      let am := add_message st2 sid .Assistant (resultMessageContent tr) (some tr.agent_type)
      run_subtasks dispatchExt sid rest am.2 (responses ++ [am.1])

/-- session_manager.rs `execute_user_request` (lines 190-282): appends the
User message, builds the bounded context, runs the planner
(`capability`/`serde` as in `MiddleManager.process_task`; `fid` drawn from
the counter), appends the Assistant plan-summary message, then dispatches
each subtask in order, storing its result and appending one Assistant
message per subtask. Returns the `responses` list accumulated since the
plan-summary message. -/
def execute_user_request (capability : String → Except String String)
    (serde : String → Option TaskDecomposition)
    (dispatchExt : String → SubTask → Except String TaskResult)
    (st : SMState) (session_id user_message : String) :
    RustOutcome String (List ConversationMessage × SMState) :=
  let st1 := (add_message st session_id .User user_message none).2
  let history := historyOf st1 session_id
  let context := build_context_from_history history
  let fid := st1.gen
  let st2 := bumpGen st1 1
  match MiddleManager.process_task capability serde fid user_message context with
  | .panics => .panics
  | .err e => .err e
  | .ok decomposition =>
    let rm := add_message st2 session_id .Assistant
      ("Task decomposition: " ++ decomposition.strategy ++ " - " ++ decomposition.reasoning)
      (some "middle_manager")
    run_subtasks dispatchExt session_id decomposition.subtasks rm.2 [rm.1]

/-- session_manager.rs `create_session` (lines 62-137). Oracles:
`isGitRepo` models `project_path.join(".git").exists()`, `worktreeResult`
the `GitWorktreeManager::create_worktree` call, `dbResult` the
`get_database().create_session(&session)` persistence call. On worktree
failure the session is created without isolation; the only error return is
the propagated store error. The final `add_message` appends the System
greeting (and, per `add_message`, marks the table copy Active). -/
def create_session (st : SMState) (name project_path : String)
    (description : Option String) (isGitRepo : Bool)
    (worktreeResult : Except String String) (dbResult : Except String Unit) :
    Except String (Session × SMState) :=
  let session_id := Nat.repr st.gen
  let st := bumpGen st 1
  let wt : Option String × Option String :=
    if isGitRepo then
      match worktreeResult with
      | .ok worktree_path => (some worktree_path, some ("session/" ++ session_id))
      | .error _ => (none, none)
    else (none, none)
  let session : Session :=
    ⟨session_id, name, project_path, description, .Created, st.gen, st.gen + 1, wt.1, wt.2⟩
  let st := bumpGen st 2
  match dbResult with
  | .error e => .error e
  | .ok _ =>
    let st : SMState :=
      { st with active_sessions := (session.id, ⟨session, [], []⟩) :: st.active_sessions }
    let worktree_info :=
      match session.worktree_path with
      | some p => " with isolated git worktree at: " ++ p
      | none => ""
    let st :=
      (add_message st session.id .System
        ("Session \x27" ++ session.name ++ "\x27 created for project at: "
          ++ session.project_path ++ worktree_info) none).2
    .ok (session, st)

end SessionManager

/-! ## Git worktree manager (git_worktree_manager.rs) -/

/-- Captured output of one external `git` invocation. -/
structure CmdResult where
  success : Bool
  stdoutText : String
  stderrText : String
deriving DecidableEq, Repr

/-- Outcome of `Command::output()`: an io-level failure (propagated by `?`)
or a completed run with an exit status. -/
inductive CmdOutcome where
  | ioErr (e : String)
  | ran (r : CmdResult)
deriving DecidableEq, Repr

/-- Oracle for the git subcommands `remove_worktree` issues, keyed by the
directory or branch the command acts on. -/
structure GitEnv where
  branchShow : String → CmdOutcome
  worktreeRemove : String → CmdOutcome
  branchDelete : String → CmdOutcome

namespace GitWorktreeManager

/-- git_worktree_manager.rs `get_worktree_branch` (lines 186-200):
`git branch --show-current` in the worktree, trimmed stdout on success. -/
def get_worktree_branch (env : GitEnv) (worktree_path : String) :
    Except String String :=
  match env.branchShow worktree_path with
  | .ioErr e => .error e
  | .ran r =>
    if r.success then .ok r.stdoutText.trim
    else .error ("Failed to get current branch: " ++ r.stderrText)

/-- git_worktree_manager.rs `remove_worktree` (lines 67-96). The first
component is the returned `Result`; the second lists the branches whose
deletion was attempted (`delete_branch` is called, its result discarded).
The branch read and an io-level failure of the removal command propagate
via `?`; a non-success removal exit is only logged. -/
def remove_worktree (env : GitEnv) (project_path worktree_path : String) :
    Except String Unit × List String :=
  match get_worktree_branch env worktree_path with
  | .error e => (.error e, [])
  | .ok branch_name =>
    match env.worktreeRemove worktree_path with
    | .ioErr e => (.error e, [])
    | .ran _r =>
      if strStartsWith branch_name "session/" then
        ((Except.ok ()), [branch_name])
      else
        ((Except.ok ()), [])

/-- git_worktree_manager.rs `WorktreeInfo`. -/
structure WorktreeInfo where
  path : String
  branch : String
  head : String
deriving DecidableEq, Repr

/-- What the sidecar metadata file of a worktree yields in
`cleanup_abandoned_worktrees`: unreadable (`read_to_string` failed),
unparsable (`serde_json::from_str` failed), parsed without a string
`session_id` field, or a recorded session id. -/
inductive MetaState where
  | unreadable
  | unparsable
  | noSessionId
  | sid (s : String)
deriving DecidableEq, Repr

/-- git_worktree_manager.rs `cleanup_abandoned_worktrees` (lines 361-385)
applied to an enumerated worktree list. `meta` is the filesystem/serde
oracle keyed by metadata-file path. Returns the worktree paths whose
removal is attempted (each `remove_worktree` error is discarded); the main
worktree (path equal to the project path) is skipped, and any worktree
without a readable, parsable metadata file recording a session id absent
from `active_session_ids` is left untouched. -/
def cleanup_abandoned_worktrees (project_path : String)
    (meta : String → MetaState) (worktrees : List WorktreeInfo)
    (active_session_ids : List String) : List String :=
  worktrees.filterMap (fun wt =>
    if wt.path = project_path then none
    else
      match meta (wt.path ++ "/.agenttool-session.json") with
      | .sid s => if elemStr active_session_ids s then none else some wt.path
      | _ => none)

end GitWorktreeManager

/-! ## Helper lemmas -/

theorem alookup_aupdate_self {α : Type} (l : List (String × α)) (k : String)
    (f : α → α) : alookup (aupdate l k f) k = (alookup l k).map f := by
  induction l with
  | nil => rfl
  | cons kv rest ih =>
    obtain ⟨k', v⟩ := kv
    by_cases h : k' = k
    · simp [aupdate, alookup, h]
    · simp [aupdate, alookup, h, ih]

theorem claude_validate_false_of_save (task : String) (p : AgentPermissions)
    (hs : containsStr (lowerStr task) "save" = true) (hw : p.file_write = false) :
    ClaudeCodeAdapter.validate_task_permissions task p = false := by
  unfold ClaudeCodeAdapter.validate_task_permissions
  simp [hs, hw]

theorem gemini_validate_false_of_save (task : String) (p : AgentPermissions)
    (hs : containsStr (lowerStr task) "save" = true) (hw : p.file_write = false) :
    GeminiCliAdapter.validate_task_permissions task p = false := by
  unfold GeminiCliAdapter.validate_task_permissions
  simp [hs, hw]

theorem gemini_validate_false_of_no_network (task : String) (p : AgentPermissions)
    (hn : p.network_access = false) :
    GeminiCliAdapter.validate_task_permissions task p = false := by
  unfold GeminiCliAdapter.validate_task_permissions
  simp [hn]

/-- A `TaskStatus` is terminal when it is Completed, Failed or Cancelled. -/
def TaskStatus.isTerminal : TaskStatus → Prop
  | .Completed => True
  | .Failed => True
  | .Cancelled => True
  | _ => False

/-! ## Claim theorems -/

/-- Claim C2: every `TaskResult` produced by the adapters' `execute_task`
(acceptance or rejection) or by the orchestrator's inline `middle_manager`
handling has `completed_at` set if and only if its status is terminal
(Completed, Failed or Cancelled). -/
theorem taskresult_completed_at_iff_terminal :
    (∀ (st : ClaudeAdapterState) writeErr out g sid task ctx tr st',
        ClaudeCodeAdapter.execute_task st writeErr out g sid task ctx = .ok (tr, st') →
        (tr.completed_at.isSome = true ↔
          (tr.status = .Completed ∨ tr.status = .Failed ∨ tr.status = .Cancelled)))
  ∧ (∀ (st : GeminiAdapterState) g sid task ctx tr st',
        GeminiCliAdapter.execute_task st g sid task ctx = .ok (tr, st') →
        (tr.completed_at.isSome = true ↔
          (tr.status = .Completed ∨ tr.status = .Failed ∨ tr.status = .Cancelled)))
  ∧ (∀ g sid descr,
        ((SessionManager.mk_middle_manager_result g sid descr).completed_at.isSome = true ↔
          ((SessionManager.mk_middle_manager_result g sid descr).status = .Completed
            ∨ (SessionManager.mk_middle_manager_result g sid descr).status = .Failed
            ∨ (SessionManager.mk_middle_manager_result g sid descr).status = .Cancelled))) := by
  refine ⟨?_, ?_, ?_⟩
  · intro st writeErr out g sid task ctx tr st' h
    unfold ClaudeCodeAdapter.execute_task at h
    split at h
    · simp at h
    · split at h
      · simp only [Except.ok.injEq, Prod.mk.injEq] at h
        obtain ⟨h1, -⟩ := h
        subst h1
        simp
      · split at h <;> split at h <;>
          first
          | (simp only [Except.ok.injEq, Prod.mk.injEq] at h
             obtain ⟨h1, -⟩ := h
             subst h1
             by_cases ho : out = "" <;> simp [ho])
          | simp at h
  · intro st g sid task ctx tr st' h
    unfold GeminiCliAdapter.execute_task at h
    split at h
    · simp at h
    · split at h
      · simp only [Except.ok.injEq, Prod.mk.injEq] at h
        obtain ⟨h1, -⟩ := h
        subst h1
        simp
      · simp only [Except.ok.injEq, Prod.mk.injEq] at h
        obtain ⟨h1, -⟩ := h
        subst h1
        simp
  · intro g sid descr
    simp [SessionManager.mk_middle_manager_result]

/-- Concrete adapter state with one Claude session whose permissions forbid
file writes. -/
def claudeStNoWrite : ClaudeAdapterState :=
  ⟨[("s", ⟨"/p", ⟨true, false, true, true, ["**"]⟩, []⟩)]⟩

/-- Concrete adapter state with one Gemini session whose permissions forbid
file writes (network allowed). -/
def geminiStNoWrite : GeminiAdapterState :=
  ⟨[("s", ⟨"/p", ⟨true, false, true, false, ["/p"]⟩⟩)]⟩

theorem taskresult_completed_at_iff_terminal_witness :
    ((⟨0, "s", "save the file", "claude_code", .Failed, none,
        some "Task not allowed by current permissions", 1, some 2⟩ :
          TaskResult).completed_at.isSome = true ↔
      ((⟨0, "s", "save the file", "claude_code", .Failed, none,
          some "Task not allowed by current permissions", 1, some 2⟩ :
            TaskResult).status = .Completed
        ∨ (⟨0, "s", "save the file", "claude_code", .Failed, none,
            some "Task not allowed by current permissions", 1, some 2⟩ :
              TaskResult).status = .Failed
        ∨ (⟨0, "s", "save the file", "claude_code", .Failed, none,
            some "Task not allowed by current permissions", 1, some 2⟩ :
              TaskResult).status = .Cancelled)) :=
  taskresult_completed_at_iff_terminal.1 claudeStNoWrite none "" 0 "s" "save the file"
    none _ claudeStNoWrite rfl

/-- Claim C3: with `file_write = false`, any task whose lowercased text
contains "save" is rejected by `execute_task` on a registered session with
an `Ok` `Failed` `TaskResult` carrying the fixed rejection message, and the
adapter state (in particular the process's stdin log) is returned
unchanged — the backend process is never touched. Holds for both adapters. -/
theorem save_task_rejected_without_file_write :
    ∀ task, containsStr (lowerStr task) "save" = true →
      (∀ (st : ClaudeAdapterState) writeErr out g sid ctx proc,
          alookup st.processes sid = some proc →
          proc.permissions.file_write = false →
          ClaudeCodeAdapter.execute_task st writeErr out g sid task ctx =
            .ok (⟨g, sid, task, "claude_code", .Failed, none,
                  some "Task not allowed by current permissions", g + 1, some (g + 2)⟩, st))
    ∧ (∀ (st : GeminiAdapterState) g sid ctx proc,
          alookup st.processes sid = some proc →
          proc.permissions.file_write = false →
          GeminiCliAdapter.execute_task st g sid task ctx =
            .ok (⟨g, sid, task, "gemini_cli", .Failed, none,
                  some "Task not allowed by current permissions", g + 1, some (g + 2)⟩, st)) := by
  intro task hs
  constructor
  · intro st writeErr out g sid ctx proc hl hw
    unfold ClaudeCodeAdapter.execute_task
    rw [hl]
    simp [claude_validate_false_of_save task proc.permissions hs hw]
  · intro st g sid ctx proc hl hw
    unfold GeminiCliAdapter.execute_task
    rw [hl]
    simp [gemini_validate_false_of_save task proc.permissions hs hw]

theorem save_task_rejected_without_file_write_witness :
    ClaudeCodeAdapter.execute_task claudeStNoWrite none "" 0 "s" "Save the file" none =
      .ok (⟨0, "s", "Save the file", "claude_code", .Failed, none,
            some "Task not allowed by current permissions", 1, some 2⟩, claudeStNoWrite)
  ∧ GeminiCliAdapter.execute_task geminiStNoWrite 0 "s" "Save the file" none =
      .ok (⟨0, "s", "Save the file", "gemini_cli", .Failed, none,
            some "Task not allowed by current permissions", 1, some 2⟩, geminiStNoWrite) :=
  ⟨(save_task_rejected_without_file_write "Save the file" (by decide)).1
      claudeStNoWrite none "" 0 "s" none _ rfl rfl,
   (save_task_rejected_without_file_write "Save the file" (by decide)).2
      geminiStNoWrite 0 "s" none _ rfl rfl⟩

/-- Claim C9: for the Gemini agent kind, `network_access = false` rejects
everything regardless of the task text: `start_session` returns an error,
and `execute_task` on a registered session returns an `Ok` `Failed`
`TaskResult` with the fixed rejection message. -/
theorem gemini_requires_network :
    (∀ (st : GeminiAdapterState) spawnErr sid path (p : AgentPermissions),
        p.network_access = false →
        ∃ e, GeminiCliAdapter.start_session st spawnErr sid path p = .error e)
  ∧ (∀ (st : GeminiAdapterState) g sid task ctx proc,
        alookup st.processes sid = some proc →
        proc.permissions.network_access = false →
        GeminiCliAdapter.execute_task st g sid task ctx =
          .ok (⟨g, sid, task, "gemini_cli", .Failed, none,
                some "Task not allowed by current permissions", g + 1, some (g + 2)⟩, st)) := by
  constructor
  · intro st spawnErr sid path p hn
    unfold GeminiCliAdapter.start_session
    by_cases hex : (alookup st.processes sid).isSome = true
    · rw [if_pos hex]
      exact ⟨_, rfl⟩
    · rw [if_neg hex, hn]
      exact ⟨_, rfl⟩
  · intro st g sid task ctx proc hl hn
    unfold GeminiCliAdapter.execute_task
    rw [hl]
    simp [gemini_validate_false_of_no_network task proc.permissions hn]

/-- Gemini state with one registered session whose permissions deny network
access (such a session cannot arise via `start_session`, but `execute_task`
gates on the stored permissions alone). -/
def geminiStNoNetwork : GeminiAdapterState :=
  ⟨[("s", ⟨"/p", ⟨true, true, false, true, ["/p"]⟩⟩)]⟩

theorem gemini_requires_network_witness :
    (∃ e, GeminiCliAdapter.start_session ⟨[]⟩ none "s" "/p"
        ⟨true, true, false, true, ["/p"]⟩ = .error e)
  ∧ GeminiCliAdapter.execute_task geminiStNoNetwork 0 "s" "hello" none =
      .ok (⟨0, "s", "hello", "gemini_cli", .Failed, none,
            some "Task not allowed by current permissions", 1, some 2⟩, geminiStNoNetwork) :=
  ⟨gemini_requires_network.1 ⟨[]⟩ none "s" "/p" ⟨true, true, false, true, ["/p"]⟩ rfl,
   gemini_requires_network.2 geminiStNoNetwork 0 "s" "hello" none _ rfl rfl⟩

/-- Effect of `add_message` on the table entry of a registered session:
history extended by the new message, status forced to Active, `updated_at`
refreshed to the call-time clock, everything else untouched. -/
theorem add_message_lookup (st : SMState) (sid : String) (role : MessageRole)
    (content : String) (agent_type : Option String) (sd : SessionData)
    (h : alookup st.active_sessions sid = some sd) :
    alookup (SessionManager.add_message st sid role content agent_type).2.active_sessions sid =
      some { sd with
        conversation_history := sd.conversation_history
          ++ [(⟨st.gen, sid, role, content, agent_type, st.gen + 1⟩ : ConversationMessage)]
        session := { sd.session with status := .Active, updated_at := st.gen + 2 } } := by
  unfold SessionManager.add_message
  simp [alookup_aupdate_self, h]

/-- Claim C10: for a session present in the active-session table,
`add_message` — whatever the role — returns the freshly built message and,
as a side effect on the table entry, appends it to the conversation history,
sets the session status to Active (so Created and Paused sessions become
Active) and refreshes `updated_at` to the current clock, leaving all other
session fields and the task map unchanged. -/
theorem add_message_appends_and_activates :
    ∀ (st : SMState) (sid : String) (role : MessageRole) (content : String)
      (agent_type : Option String) (sd : SessionData),
      alookup st.active_sessions sid = some sd →
      (SessionManager.add_message st sid role content agent_type).1 =
          (⟨st.gen, sid, role, content, agent_type, st.gen + 1⟩ : ConversationMessage)
      ∧ alookup (SessionManager.add_message st sid role content agent_type).2.active_sessions sid =
          some { sd with
            conversation_history := sd.conversation_history
              ++ [(⟨st.gen, sid, role, content, agent_type, st.gen + 1⟩ : ConversationMessage)]
            session := { sd.session with status := .Active, updated_at := st.gen + 2 } } :=
  fun st sid role content agent_type sd h =>
    ⟨rfl, add_message_lookup st sid role content agent_type sd h⟩

/-- A table with one Paused session, for the C10 witness. -/
def pausedSt : SMState :=
  ⟨[("s", ⟨⟨"s", "n", "/p", none, .Paused, 0, 7, none, none⟩, [], []⟩)], 20⟩

theorem add_message_appends_and_activates_witness :
    (SessionManager.add_message pausedSt "s" .User "hi" none).1 =
        (⟨20, "s", .User, "hi", none, 21⟩ : ConversationMessage)
    ∧ alookup (SessionManager.add_message pausedSt "s" .User "hi" none).2.active_sessions "s" =
        some ⟨⟨"s", "n", "/p", none, .Active, 0, 22, none, none⟩,
          [⟨20, "s", .User, "hi", none, 21⟩], []⟩ :=
  add_message_appends_and_activates pausedSt "s" .User "hi" none
    ⟨⟨"s", "n", "/p", none, .Paused, 0, 7, none, none⟩, [], []⟩ rfl

/-- A string whose characters are all before the first newline has a first
line (in the Rust `lines` sense) whenever it is non-empty. -/
theorem rustFirstLine_isSome_of_ne_nil (s : String) (h : s.toList ≠ []) :
    ∃ l, rustFirstLine s = some l := by
  unfold rustFirstLine
  cases hm : s.toList with
  | nil => exact absurd hm h
  | cons c cs =>
    dsimp only
    split
    · exact ⟨_, rfl⟩
    · exact ⟨_, rfl⟩

/-- Claim C4 (the code panics where the claim asserts totality): on the
input `"\x7dab\x7b"` — which contains both a `\x7b` and a `\x7d`, so the
claim demands an `Ok` fallback — the first `\x7b` (index 3) lies more than
one position past the last `\x7d` (index 0), so the Rust slice
`&response[3..=0]` panics; and an `.err` return occurs exactly when the
input has no `\x7b` or no `\x7d`. -/
theorem parse_decomposition_panics_on_inverted_braces :
    MiddleManager.parse_decomposition_response (fun _ => none) 0 "\x7dab\x7b" =
      .panics
  ∧ ∀ (serde : String → Option TaskDecomposition) (fid : Nat) (r : String),
      (∃ msg, MiddleManager.parse_decomposition_response serde fid r = .err msg) ↔
        (firstIdxOf '{' r.toList = none ∨ lastIdxOf '}' r.toList = none) := by
  constructor
  · rfl
  · intro serde fid r
    unfold MiddleManager.parse_decomposition_response
    simp only [String.toList]
    cases hf : firstIdxOf '{' r.data with
    | none => cases hl : lastIdxOf '}' r.data <;> simp
    | some s =>
      cases hl : lastIdxOf '}' r.data with
      | none => simp
      | some e =>
        dsimp only
        constructor
        · rintro ⟨msg, hmsg⟩
          by_cases hlt : e + 1 < s
          · rw [if_pos hlt] at hmsg
            exact absurd hmsg (by simp)
          · rw [if_neg hlt] at hmsg
            cases hps : serde (String.mk ((r.data.drop s).take (e + 1 - s))) <;>
              rw [hps] at hmsg <;> exact absurd hmsg (by simp)
        · rintro (h | h) <;> simp at h

/-- Claim C5: `process_task` falls back rather than failing. If the planning
capability call errors, the result is an `Ok` single-subtask "delegate"
decomposition whose subtask repeats the task text and targets
`claude_code`; if a response is obtained, a JSON-looking region is
extracted (first `\x7b` at most one past the last `\x7d`, avoiding the C4
panic) and the external parse rejects it, the single fallback subtask's
description is the first line of the raw response. Both fallbacks produce
exactly one subtask, never zero. -/
theorem process_task_fallback_spec :
    (∀ (capability : String → Except String String)
        (serde : String → Option TaskDecomposition) (fid : Nat) (task context e : String),
        capability (MiddleManager.decompositionPrompt task context) = .error e →
        MiddleManager.process_task capability serde fid task context =
          .ok ⟨"delegate", "Task requires code analysis and implementation",
            [⟨Nat.repr fid, task, "claude_code", "high", []⟩]⟩)
  ∧ (∀ (capability : String → Except String String)
        (serde : String → Option TaskDecomposition) (fid : Nat)
        (task context response : String) (s e : Nat),
        capability (MiddleManager.decompositionPrompt task context) = .ok response →
        firstIdxOf '{' response.toList = some s →
        lastIdxOf '}' response.toList = some e →
        s ≤ e + 1 →
        serde (String.mk ((response.toList.drop s).take (e + 1 - s))) = none →
        ∃ l, rustFirstLine response = some l ∧
          MiddleManager.process_task capability serde fid task context =
            .ok ⟨"delegate", "Parsed from AI response",
              [⟨Nat.repr fid, l, "claude_code", "high", []⟩]⟩) := by
  constructor
  · intro capability serde fid task context e hcap
    unfold MiddleManager.process_task
    rw [hcap]
  · intro capability serde fid task context response s e hcap hf hl hle hserde
    have hne : response.toList ≠ [] := by
      intro hnil
      rw [hnil] at hf
      exact absurd hf (by simp [firstIdxOf])
    obtain ⟨l, hline⟩ := rustFirstLine_isSome_of_ne_nil response hne
    refine ⟨l, hline, ?_⟩
    unfold MiddleManager.process_task
    rw [hcap]
    dsimp only
    unfold MiddleManager.parse_decomposition_response
    simp only [String.toList] at hf hl hserde ⊢
    rw [hf, hl]
    dsimp only
    rw [if_neg (by omega), hserde, hline]
    rfl

theorem process_task_fallback_spec_witness :
    MiddleManager.process_task (fun _ => .error "OpenRouter API key not configured")
        (fun _ => none) 3 "build it" "" =
      .ok ⟨"delegate", "Task requires code analysis and implementation",
        [⟨"3", "build it", "claude_code", "high", []⟩]⟩
  ∧ ∃ l, rustFirstLine "bad \x7bx\x7d json" = some l ∧
      MiddleManager.process_task (fun _ => .ok "bad \x7bx\x7d json")
          (fun _ => none) 3 "t" "c" =
        .ok ⟨"delegate", "Parsed from AI response",
          [⟨"3", l, "claude_code", "high", []⟩]⟩ :=
  ⟨process_task_fallback_spec.1 (fun _ => .error "OpenRouter API key not configured")
      (fun _ => none) 3 "build it" "" "OpenRouter API key not configured" rfl,
   process_task_fallback_spec.2 (fun _ => .ok "bad \x7bx\x7d json")
      (fun _ => none) 3 "t" "c" "bad \x7bx\x7d json" 4 6 rfl (by decide) (by decide)
      (by decide) rfl⟩

/-- Claim C6: `create_session` fails exactly when the store rejects
persistence (same error value), and a worktree-creation failure on a
version-controlled project still yields an `Ok` session with no
worktree path, no branch name and status Created, registered in the
active-session table. -/
theorem create_session_spec :
    (∀ (st : SMState) name pp descr (git : Bool) (wres : Except String String)
        (db : Except String Unit) (e : String),
        SessionManager.create_session st name pp descr git wres db = .error e ↔
          db = .error e)
  ∧ (∀ (st : SMState) name pp descr (we : String),
        ∃ s st',
          SessionManager.create_session st name pp descr true (.error we) (.ok ()) =
            .ok (s, st')
          ∧ s.worktree_path = none ∧ s.branch_name = none ∧ s.status = .Created
          ∧ (alookup st'.active_sessions s.id).isSome = true) := by
  constructor
  · intro st name pp descr git wres db e
    cases db with
    | error e' => simp [SessionManager.create_session]
    | ok u => simp [SessionManager.create_session]
  · intro st name pp descr we
    refine ⟨_, _, rfl, rfl, rfl, rfl, ?_⟩
    simp [SessionManager.add_message, alookup_aupdate_self, alookup, aupdate]

/-- Claim C7 counterexample: when the branch-read step fails (here the
`git branch --show-current` command cannot even be launched),
`remove_worktree` propagates the error instead of swallowing it, so
"never returns an error regardless of which step fails" is false. -/
def c7env : GitEnv :=
  ⟨fun _ => .ioErr "failed to execute git",
   fun _ => .ran ⟨true, "", ""⟩,
   fun _ => .ran ⟨true, "", ""⟩⟩

theorem remove_worktree_propagates_branch_read_error :
    (GitWorktreeManager.remove_worktree c7env "/p" "/wt").1 =
      .error "failed to execute git" := rfl

/-- Claim C7 as amended: `remove_worktree` propagates a failure of the
branch-read step (io failure or unsuccessful exit of
`git branch --show-current`) and an io-level failure to launch the
worktree-remove command; once the removal command runs — successfully or
not — the call returns `Ok`, and the session branch deletion is attempted
only when the branch name starts with "session/". -/
theorem remove_worktree_amended_spec :
    (∀ (env : GitEnv) pp wt (r r2 : CmdResult),
        env.branchShow wt = .ran r → r.success = true →
        env.worktreeRemove wt = .ran r2 →
        (GitWorktreeManager.remove_worktree env pp wt).1 = .ok ())
  ∧ (∀ (env : GitEnv) pp wt (b : String),
        b ∈ (GitWorktreeManager.remove_worktree env pp wt).2 →
        strStartsWith b "session/" = true)
  ∧ (∀ (env : GitEnv) pp wt (e : String),
        env.branchShow wt = .ioErr e →
        (GitWorktreeManager.remove_worktree env pp wt).1 = .error e)
  ∧ (∀ (env : GitEnv) pp wt (r : CmdResult),
        env.branchShow wt = .ran r → r.success = false →
        (GitWorktreeManager.remove_worktree env pp wt).1 =
          .error ("Failed to get current branch: " ++ r.stderrText))
  ∧ (∀ (env : GitEnv) pp wt (r : CmdResult) (e : String),
        env.branchShow wt = .ran r → r.success = true →
        env.worktreeRemove wt = .ioErr e →
        (GitWorktreeManager.remove_worktree env pp wt).1 = .error e) := by
  refine ⟨?_, ?_, ?_, ?_, ?_⟩
  · intro env pp wt r r2 hb hs hr
    unfold GitWorktreeManager.remove_worktree GitWorktreeManager.get_worktree_branch
    simp only [hb, hs, hr, if_true, eq_self_iff_true]
    split <;> rfl
  · intro env pp wt b hb
    unfold GitWorktreeManager.remove_worktree at hb
    split at hb
    · simp at hb
    · split at hb
      · simp at hb
      · split at hb
        · next hpref =>
          simp only [List.mem_singleton] at hb
          subst hb
          exact hpref
        · simp at hb
  · intro env pp wt e hb
    unfold GitWorktreeManager.remove_worktree GitWorktreeManager.get_worktree_branch
    simp only [hb]
  · intro env pp wt r hb hs
    unfold GitWorktreeManager.remove_worktree GitWorktreeManager.get_worktree_branch
    simp [hb, hs]
  · intro env pp wt r e hb hs hr
    unfold GitWorktreeManager.remove_worktree GitWorktreeManager.get_worktree_branch
    simp only [hb, hs, hr, if_true, eq_self_iff_true]

theorem remove_worktree_amended_spec_witness :
    (GitWorktreeManager.remove_worktree
        ⟨fun _ => .ran ⟨true, "session/abc\n", ""⟩,
         fun _ => .ran ⟨false, "", "locked"⟩,
         fun _ => .ioErr "no such branch"⟩ "/p" "/wt").1 = .ok ()
  ∧ (GitWorktreeManager.remove_worktree
        ⟨fun _ => .ran ⟨true, "main", ""⟩,
         fun _ => .ran ⟨true, "", ""⟩,
         fun _ => .ran ⟨true, "", ""⟩⟩ "/p" "/wt").1 = .ok ()
  ∧ (GitWorktreeManager.remove_worktree c7env "/p" "/wt").1 =
      .error "failed to execute git" :=
  ⟨remove_worktree_amended_spec.1 _ "/p" "/wt" ⟨true, "session/abc\n", ""⟩
      ⟨false, "", "locked"⟩ rfl rfl rfl,
   remove_worktree_amended_spec.1 _ "/p" "/wt" ⟨true, "main", ""⟩
      ⟨true, "", ""⟩ rfl rfl rfl,
   remove_worktree_amended_spec.2.2.1 c7env "/p" "/wt" "failed to execute git" rfl⟩

/-- Claim C8: `cleanup_abandoned_worktrees` attempts removal of exactly
the non-main worktrees whose metadata file is readable, parses, and
records a session id outside the active list; every other worktree
(main, unreadable, unparsable, no session id, or active session id) is
left untouched. -/
theorem cleanup_removes_exactly_abandoned :
    ∀ (project_path : String) (meta : String → GitWorktreeManager.MetaState)
      (worktrees : List GitWorktreeManager.WorktreeInfo)
      (active : List String) (p : String),
      p ∈ GitWorktreeManager.cleanup_abandoned_worktrees project_path meta worktrees active ↔
        ∃ wt ∈ worktrees, wt.path = p ∧ p ≠ project_path ∧
          ∃ s, meta (p ++ "/.agenttool-session.json") = .sid s ∧
            elemStr active s = false := by
  intro project_path meta worktrees active p
  unfold GitWorktreeManager.cleanup_abandoned_worktrees
  rw [List.mem_filterMap]
  constructor
  · rintro ⟨wt, hmem, hf⟩
    split at hf
    · simp at hf
    · next hmain =>
      split at hf
      · next s hmeta =>
        split at hf
        · simp at hf
        · next hact =>
          simp only [Option.some.injEq] at hf
          subst hf
          exact ⟨wt, hmem, rfl, hmain, s, hmeta, by simpa using hact⟩
      · simp at hf
  · rintro ⟨wt, hmem, hpath, hne, s, hmeta, hact⟩
    refine ⟨wt, hmem, ?_⟩
    rw [hpath, if_neg hne, hmeta]
    simp [hact]

/-! ## History lemmas for the `execute_user_request` loop -/

theorem historyOf_eq_of_sessions_eq (st st' : SMState) (sid : String)
    (h : st'.active_sessions = st.active_sessions) :
    SessionManager.historyOf st' sid = SessionManager.historyOf st sid := by
  unfold SessionManager.historyOf
  rw [h]

theorem isSome_add_message (st : SMState) (sid : String) (role : MessageRole)
    (content : String) (agent : Option String) :
    (alookup (SessionManager.add_message st sid role content agent).2.active_sessions
        sid).isSome = (alookup st.active_sessions sid).isSome := by
  unfold SessionManager.add_message
  simp [alookup_aupdate_self]

theorem historyOf_add_message (st : SMState) (sid : String) (role : MessageRole)
    (content : String) (agent : Option String)
    (h : (alookup st.active_sessions sid).isSome = true) :
    SessionManager.historyOf (SessionManager.add_message st sid role content agent).2 sid =
      SessionManager.historyOf st sid
        ++ [(SessionManager.add_message st sid role content agent).1] := by
  obtain ⟨sd, hsd⟩ := Option.isSome_iff_exists.mp h
  unfold SessionManager.historyOf
  rw [add_message_lookup st sid role content agent sd hsd, hsd]
  rfl

theorem isSome_store_task_result (st : SMState) (sid : String) (tr : TaskResult) :
    (alookup (SessionManager.store_task_result st sid tr).active_sessions sid).isSome =
      (alookup st.active_sessions sid).isSome := by
  unfold SessionManager.store_task_result
  simp [alookup_aupdate_self]

theorem historyOf_store_task_result (st : SMState) (sid : String) (tr : TaskResult) :
    SessionManager.historyOf (SessionManager.store_task_result st sid tr) sid =
      SessionManager.historyOf st sid := by
  unfold SessionManager.historyOf SessionManager.store_task_result
  simp only [alookup_aupdate_self]
  cases alookup st.active_sessions sid <;> rfl

theorem dispatch_subtask_sessions_eq
    (disp : String → SubTask → Except String TaskResult) (sid : String)
    (s : SubTask) (st : SMState) (tr : TaskResult) (st1 : SMState)
    (h : SessionManager.dispatch_subtask disp sid s st = .ok (tr, st1)) :
    st1.active_sessions = st.active_sessions := by
  unfold SessionManager.dispatch_subtask at h
  split at h
  · cases hd : disp "claude_code" s with
    | error e => rw [hd] at h; exact absurd h (by simp [Except.map])
    | ok v =>
      rw [hd] at h
      simp only [Except.map, Except.ok.injEq, Prod.mk.injEq] at h
      rw [← h.2]
  · split at h
    · cases hd : disp "gemini_cli" s with
      | error e => rw [hd] at h; exact absurd h (by simp [Except.map])
      | ok v =>
        rw [hd] at h
        simp only [Except.map, Except.ok.injEq, Prod.mk.injEq] at h
        rw [← h.2]
    · split at h
      · simp only [Except.ok.injEq, Prod.mk.injEq] at h
        rw [← h.2]
        rfl
      · exact absurd h (by simp)

theorem run_subtasks_spec (disp : String → SubTask → Except String TaskResult)
    (sid : String) :
    ∀ (subs : List SubTask) (st : SMState) (acc resp : List ConversationMessage)
      (st' : SMState),
      (alookup st.active_sessions sid).isSome = true →
      SessionManager.run_subtasks disp sid subs st acc = .ok (resp, st') →
      ∃ extra, resp = acc ++ extra
        ∧ SessionManager.historyOf st' sid = SessionManager.historyOf st sid ++ extra
        ∧ ∀ m ∈ extra, m.role = .Assistant := by
  intro subs
  induction subs with
  | nil =>
    intro st acc resp st' hm h
    unfold SessionManager.run_subtasks at h
    simp only [RustOutcome.ok.injEq, Prod.mk.injEq] at h
    obtain ⟨h1, h2⟩ := h
    subst h1
    subst h2
    exact ⟨[], by simp, by simp, by simp⟩
  | cons s rest ih =>
    intro st acc resp st' hm h
    unfold SessionManager.run_subtasks at h
    split at h
    · exact absurd h (by simp)
    · next tr st1 heq =>
      have htab := dispatch_subtask_sessions_eq disp sid s st tr st1 heq
      have hm1 : (alookup st1.active_sessions sid).isSome = true := by
        rw [htab]; exact hm
      have hm2 : (alookup (SessionManager.store_task_result st1 sid tr).active_sessions
          sid).isSome = true := by
        rw [isSome_store_task_result]; exact hm1
      have hm3 : (alookup (SessionManager.add_message
          (SessionManager.store_task_result st1 sid tr) sid .Assistant
          (SessionManager.resultMessageContent tr)
          (some tr.agent_type)).2.active_sessions sid).isSome = true := by
        rw [isSome_add_message]; exact hm2
      obtain ⟨extra, hresp, hhist, hroles⟩ := ih _ _ resp st' hm3 h
      refine ⟨(SessionManager.add_message (SessionManager.store_task_result st1 sid tr)
          sid .Assistant (SessionManager.resultMessageContent tr)
          (some tr.agent_type)).1 :: extra, ?_, ?_, ?_⟩
      · rw [hresp, List.append_assoc]
        rfl
      · rw [hhist, historyOf_add_message _ _ _ _ _ hm2, historyOf_store_task_result,
          historyOf_eq_of_sessions_eq st st1 sid htab]
        simp
      · intro m hmem
        rcases List.mem_cons.mp hmem with hm' | hm'
        · rw [hm']; rfl
        · exact hroles m hm'

/-- Claim C1 as amended: for a known session id, a successful
`execute_user_request` appends, in order, the initial User message, the
Assistant plan-summary message and one Assistant message per dispatched
subtask to the session history, and returns every appended message
*except* the initial User message: the returned list is the appended-message
list with the leading User message dropped (all returned messages are
Assistant messages, starting with the plan summary). -/
theorem execute_user_request_returns_messages_after_user :
    ∀ (capability : String → Except String String)
      (serde : String → Option TaskDecomposition)
      (dispatchExt : String → SubTask → Except String TaskResult)
      (st : SMState) (sid msg : String) (resp : List ConversationMessage)
      (st' : SMState),
      (alookup st.active_sessions sid).isSome = true →
      SessionManager.execute_user_request capability serde dispatchExt st sid msg =
        .ok (resp, st') →
      SessionManager.historyOf st' sid =
        SessionManager.historyOf st sid
          ++ (⟨st.gen, sid, .User, msg, none, st.gen + 1⟩ : ConversationMessage) :: resp
      ∧ resp ≠ []
      ∧ ∀ m ∈ resp, m.role = .Assistant := by
  intro capability serde dispatchExt st sid msg resp st' hm h
  unfold SessionManager.execute_user_request at h
  simp only [] at h
  split at h
  · exact absurd h (by simp)
  · exact absurd h (by simp)
  · next decomposition heq =>
    have hm1 : (alookup (SessionManager.add_message st sid .User msg
        none).2.active_sessions sid).isSome = true := by
      rw [isSome_add_message]; exact hm
    have hm2 : (alookup (SessionManager.bumpGen (SessionManager.add_message st sid .User msg
        none).2 1).active_sessions sid).isSome = true := hm1
    have hm3 : (alookup (SessionManager.add_message
        (SessionManager.bumpGen (SessionManager.add_message st sid .User msg none).2 1)
        sid .Assistant
        ("Task decomposition: " ++ decomposition.strategy ++ " - " ++ decomposition.reasoning)
        (some "middle_manager")).2.active_sessions sid).isSome = true := by
      rw [isSome_add_message]; exact hm2
    obtain ⟨extra, hresp, hhist, hroles⟩ :=
      run_subtasks_spec dispatchExt sid decomposition.subtasks _ _ resp st' hm3 h
    have huser := historyOf_add_message st sid .User msg none hm
    have hreason := historyOf_add_message
      (SessionManager.bumpGen (SessionManager.add_message st sid .User msg none).2 1)
      sid .Assistant
      ("Task decomposition: " ++ decomposition.strategy ++ " - " ++ decomposition.reasoning)
      (some "middle_manager") hm2
    refine ⟨?_, ?_, ?_⟩
    · rw [hhist, hreason]
      have hb : SessionManager.historyOf
          (SessionManager.bumpGen (SessionManager.add_message st sid .User msg none).2 1)
          sid = SessionManager.historyOf (SessionManager.add_message st sid .User msg
          none).2 sid := rfl
      rw [hb, huser, hresp]
      simp
      rfl
    · rw [hresp]
      simp
    · intro m hmem
      rw [hresp] at hmem
      rcases List.mem_cons.mp hmem with hm' | hm'
      · rw [hm']; rfl
      · exact hroles m hm'

/-- The concrete scenario for claim C1: one registered session "s", a
planner capability that errors (so the fallback plan has one `claude_code`
subtask), and a dispatch oracle that completes the subtask. -/
def c1st : SMState :=
  ⟨[("s", ⟨⟨"s", "sess", "/p", none, .Created, 0, 0, none, none⟩, [], []⟩)], 100⟩

def c1cap : String → Except String String :=
  fun _ => .error "OpenRouter API key not configured"

def c1serde : String → Option TaskDecomposition := fun _ => none

def c1disp : String → SubTask → Except String TaskResult :=
  fun _ sub =>
    .ok ⟨500, "s", sub.description, "claude_code", .Completed, some "done", none,
      501, some 502⟩

def c1run : RustOutcome String (List ConversationMessage × SMState) :=
  SessionManager.execute_user_request c1cap c1serde c1disp c1st "s" "hi"

def c1resp : List ConversationMessage :=
  match c1run with
  | .ok (r, _) => r
  | _ => []

def c1final : SMState :=
  match c1run with
  | .ok (_, s) => s
  | _ => ⟨[], 0⟩

def c1user : ConversationMessage := ⟨100, "s", .User, "hi", none, 101⟩

/-- Claim C1 counterexample: in the concrete scenario the call appends the
User message `c1user` to the session history (the history grows by
`c1user :: c1resp`), yet the returned list `c1resp` does not contain it —
so the returned list does not contain every message appended during the
call. -/
theorem execute_user_request_omits_user_message :
    c1run = .ok (c1resp, c1final)
  ∧ SessionManager.historyOf c1final "s" =
      SessionManager.historyOf c1st "s" ++ c1user :: c1resp
  ∧ c1user ∉ c1resp := by
  refine ⟨rfl, rfl, ?_⟩
  decide

theorem execute_user_request_returns_messages_after_user_witness :
    SessionManager.historyOf c1final "s" =
      SessionManager.historyOf c1st "s"
        ++ (⟨100, "s", .User, "hi", none, 101⟩ : ConversationMessage) :: c1resp
    ∧ c1resp ≠ []
    ∧ ∀ m ∈ c1resp, m.role = .Assistant :=
  execute_user_request_returns_messages_after_user c1cap c1serde c1disp c1st "s" "hi"
    c1resp c1final rfl rfl

end AgentTool
